import Mathlib

/-!
Shallow embedding of the core engine of `text-index.py` (timecode
arithmetic, identity scheme, CSV import matching, and text transforms),
together with proofs of the behavioural properties stated in the
repository specification.

Conventions for the embedding:
* Python machine integers are arbitrary precision, so they are modelled
  by `Int` (or `Nat` where the source value is provably non-negative).
* Python floats holding frame rates are modelled by exact rationals; the
  float literals occurring in the source (`0.066666`, `29.97`, ...) are
  mapped to the corresponding decimal rationals.  All `int(round(...))`
  results proved about below are far from representation boundaries, so
  the rational model agrees with float evaluation there.
* Python `//` and `%` are floor division and floor modulus.  On `Int`,
  Lean's `/` and `%` are Euclidean division, which coincides with floor
  division whenever the divisor is positive; every divisor appearing in
  the embedded code paths below is positive.
* Fallible code (raising `ValueError`) is modelled with `Except`.
-/

/-- Python `round` (banker's rounding: round half to even) on an exact
rational. -/
def pyRound (q : ℚ) : ℤ :=
  let f := ⌊q⌋
  let r := q - (f : ℚ)
  if r < 1/2 then f
  else if (1/2 : ℚ) < r then f + 1
  else if f % 2 = 0 then f else f + 1

/-- Python `int(...)` applied to a float/rational: truncation toward zero. -/
def pyTruncInt (q : ℚ) : ℤ :=
  if 0 ≤ q then ⌊q⌋ else -⌊-q⌋

/-- Decimal digit list of a natural number, most significant first, with
structural fuel so that it evaluates by kernel reduction.  `natChars (n+1) n`
is the digit string Python's `str` produces for a non-negative `n`. -/
def natChars : ℕ → ℕ → List Char
  | 0, _ => []
  | fuel + 1, n =>
    if n < 10 then [Nat.digitChar n]
    else natChars fuel (n / 10) ++ [Nat.digitChar (n % 10)]

/-- Python `str(n)` for an integer `n`. -/
def pyStrInt (i : ℤ) : String :=
  if i < 0 then "-" ++ String.mk (natChars (i.natAbs + 1) i.natAbs)
  else String.mk (natChars (i.toNat + 1) i.toNat)

/-- Python `str.zfill(w)`: left-pad with `'0'` to width `w`, keeping a
leading sign in front of the padding. -/
def pyZfill (s : String) (w : ℕ) : String :=
  if w ≤ s.length then s
  else if s.data.head? = some '-' then
    String.mk ('-' :: (List.replicate (w - s.length) '0' ++ s.data.tail))
  else String.mk (List.replicate (w - s.length) '0' ++ s.data)

/-- Numeric value of a list of decimal digit characters (as read left to
right by Python `int`). -/
def digitsVal (cs : List Char) : ℕ :=
  cs.foldl (fun a c => 10 * a + (c.toNat - 48)) 0

/-- Python `int(s)` restricted to the unsigned decimal literals this
program produces and consumes: succeeds exactly on a non-empty string of
ASCII digits (leading zeros allowed), otherwise raises `ValueError`
(modelled as `none`). -/
def pyIntOfChars (cs : List Char) : Option ℤ :=
  if cs ≠ [] ∧ cs.all Char.isDigit then some (digitsVal cs) else none

namespace SMPTE

/-- Timecode string assembled from numeric fields, as at the end of
`SMPTE.gettc` (`str(x).zfill(2)` per field, `:` between the first three
fields and `sp2` before the frame field). -/
def tcString (hr mn sc fr : ℤ) (sp2 : String) : String :=
  pyZfill (pyStrInt hr) 2 ++ ":" ++ pyZfill (pyStrInt mn) 2 ++ ":" ++
    pyZfill (pyStrInt sc) 2 ++ sp2 ++ pyZfill (pyStrInt fr) 2

/-- `SMPTE.gettc` from `text-index.py`: frame count to SMPTE timecode,
with `fps` and `df` passed explicitly (the source stores them on the
object; every call site assigns them immediately before calling). -/
def gettc (fps : ℚ) (df : Bool) (frames0 : ℤ) : String :=
  let frames : ℤ := (frames0.natAbs : ℤ)
  if df then
    let dropFrames := pyRound (fps * (66666 / 1000000 : ℚ))
    let framesPerHour := pyRound (fps * 3600)
    let framesPer24Hours := framesPerHour * 24
    let framesPer10Minutes := pyRound (fps * 600)
    let framesPerMinute := pyRound fps * 60 - dropFrames
    let frames1 := frames % framesPer24Hours
    let d := frames1 / framesPer10Minutes
    let m := frames1 % framesPer10Minutes
    let frames2 :=
      if m > dropFrames then
        frames1 + dropFrames * 9 * d + dropFrames * ((m - dropFrames) / framesPerMinute)
      else
        frames1 + dropFrames * 9 * d
    let frRound := pyRound fps
    let hr := frames2 / frRound / 60 / 60
    let mn := frames2 / frRound / 60 % 60
    let sc := frames2 / frRound % 60
    let fr := frames2 % frRound
    tcString hr mn sc fr ";"
  else
    let fpsR := pyRound fps
    let frHour := fpsR * 3600
    let frMin := fpsR * 60
    let hr := frames / frHour
    let mn := (frames - hr * frHour) / frMin
    let sc := (frames - hr * frHour - mn * frMin) / fpsR
    let fr := frames - hr * frHour - mn * frMin - sc * fpsR
    tcString hr mn sc fr ":"

/-- `SMPTE.getframes` from `text-index.py`: SMPTE timecode string to
frame count.  String slicing `tc[a:b]` is `(data.drop a).take (b - a)`;
the frame-field check and the `int` parses raise `ValueError` on
non-digit content, modelled as `Except.error`. -/
def getframes (fps : ℚ) (df : Bool) (tc : String) : Except String ℤ :=
  let cs := tc.data
  match pyIntOfChars (cs.drop 9) with
  | none => .error "ValueError"
  | some frames =>
    if (frames : ℚ) > fps then .error "SMPTE timecode to frame rate mismatch."
    else
      match pyIntOfChars (cs.take 2), pyIntOfChars ((cs.drop 3).take 2),
            pyIntOfChars ((cs.drop 6).take 2) with
      | some hours, some minutes, some seconds =>
        let totalMinutes := 60 * hours + minutes
        if df then
          let dropFrames := pyRound (fps * (66666 / 1000000 : ℚ))
          let timeBase := pyRound fps
          let hourFrames := timeBase * 3600
          let minuteFrames := timeBase * 60
          .ok (hourFrames * hours + minuteFrames * minutes + timeBase * seconds + frames -
                dropFrames * (totalMinutes - totalMinutes / 10))
        else
          let fpsR := pyRound fps
          .ok ((totalMinutes * 60 + seconds) * fpsR + frames)
      | _, _, _ => .error "ValueError"

end SMPTE

/-! ### Lemmas about the Python primitives -/

lemma pyRound_lo (q : ℚ) (z : ℤ) (hf : ⌊q⌋ = z) (hr : q - z < 1/2) : pyRound q = z := by
  simp only [pyRound, hf]
  rw [if_pos hr]

lemma pyRound_hi (q : ℚ) (z : ℤ) (hf : ⌊q⌋ = z) (hr : 1/2 < q - z) : pyRound q = z + 1 := by
  have h2 : ¬ (q - (z:ℚ) < 1/2) := by linarith
  simp only [pyRound, hf]
  rw [if_neg h2, if_pos hr]

lemma pyRound_le_add_half (q : ℚ) : (pyRound q : ℚ) ≤ q + 1/2 := by
  have hfl : ((⌊q⌋ : ℤ) : ℚ) ≤ q := Int.floor_le q
  simp only [pyRound]
  split_ifs with h1 h2 h3 <;> push_cast <;> linarith

lemma digitChar_isDigit (d : ℕ) (h : d < 10) : (Nat.digitChar d).isDigit = true := by
  interval_cases d <;> decide

lemma digitChar_toNat (d : ℕ) (h : d < 10) : (Nat.digitChar d).toNat = 48 + d := by
  interval_cases d <;> decide

lemma natChars_ne_nil (fuel n : ℕ) (h : 0 < fuel) : natChars fuel n ≠ [] := by
  cases fuel with
  | zero => omega
  | succ fuel =>
    rw [natChars]
    split
    · simp
    · simp

lemma natChars_all_digits (fuel n : ℕ) (h : n < fuel) :
    (natChars fuel n).all Char.isDigit = true := by
  induction fuel generalizing n with
  | zero => omega
  | succ fuel ih =>
    rw [natChars]
    split
    · next h10 => simp [digitChar_isDigit n h10]
    · next h10 =>
      have h1 : n / 10 < fuel := by omega
      have h2 : n % 10 < 10 := by omega
      simp [List.all_append, ih _ h1, digitChar_isDigit _ h2]

lemma digitsVal_append_digit (cs : List Char) (c : Char) :
    digitsVal (cs ++ [c]) = 10 * digitsVal cs + (c.toNat - 48) := by
  simp [digitsVal, List.foldl_append]

lemma digitsVal_natChars (fuel n : ℕ) (h : n < fuel) :
    digitsVal (natChars fuel n) = n := by
  induction fuel generalizing n with
  | zero => omega
  | succ fuel ih =>
    rw [natChars]
    split
    · next h10 => simp [digitsVal, digitChar_toNat n h10]
    · next h10 =>
      have h1 : n / 10 < fuel := by omega
      rw [digitsVal_append_digit, ih _ h1, digitChar_toNat (n % 10) (by omega)]
      omega

lemma pyIntOfChars_natChars (fuel n : ℕ) (h : n < fuel) :
    pyIntOfChars (natChars fuel n) = some (n : ℤ) := by
  rw [pyIntOfChars, if_pos ⟨natChars_ne_nil fuel n (by omega), natChars_all_digits fuel n h⟩,
    digitsVal_natChars fuel n h]

lemma digitsVal_cons_zero (cs : List Char) : digitsVal ('0' :: cs) = digitsVal cs := by
  simp [digitsVal]

/-- Parsing the zero-filled rendering of a non-negative integer gives it back. -/
lemma pyIntOfChars_zfill_render (x : ℤ) (h0 : 0 ≤ x) :
    pyIntOfChars ((pyZfill (pyStrInt x) 2).data) = some x := by
  obtain ⟨n, rfl⟩ := Int.eq_ofNat_of_zero_le h0
  have hneg : ¬((n : ℤ) < 0) := by omega
  rw [pyStrInt, if_neg hneg]
  have htn : ((n : ℤ)).toNat = n := rfl
  rw [htn, pyZfill]
  by_cases hlen : 2 ≤ (String.mk (natChars (n + 1) n)).length
  · rw [if_pos hlen]
    exact pyIntOfChars_natChars _ _ (by omega)
  · rw [if_neg hlen]
    have hn10 : n < 10 := by
      by_contra hge
      apply hlen
      have : 0 < n + 1 := by omega
      rw [natChars, if_neg (by omega)]
      have := natChars_ne_nil n (n / 10) (by omega)
      have hn : (natChars n (n / 10)).length ≥ 1 := by
        cases hcs : natChars n (n / 10) with
        | nil => exact absurd hcs this
        | cons a t => simp
      simp only [String.length, String.mk]
      simp [List.length_append]
      omega
    rw [natChars, if_pos hn10]
    have hd : ¬ ((String.mk [Nat.digitChar n]).data.head? = some '-') := by
      interval_cases n <;> decide
    rw [if_neg hd]
    have hlen1 : (String.mk [Nat.digitChar n]).length = 1 := by simp
    rw [hlen1]
    have hrep : List.replicate (2 - 1) '0' = ['0'] := rfl
    rw [hrep]
    show pyIntOfChars (String.mk ('0' :: [Nat.digitChar n])).data = some ((n : ℤ))
    have hdata : (String.mk ('0' :: [Nat.digitChar n])).data = '0' :: [Nat.digitChar n] := rfl
    rw [hdata, pyIntOfChars,
      if_pos ⟨by simp, by simp [digitChar_isDigit n hn10]⟩, digitsVal_cons_zero]
    have hv : digitsVal [Nat.digitChar n] = n := by
      simp [digitsVal, digitChar_toNat n hn10]
    rw [hv]

lemma render2_nat : ∀ n : ℕ, n < 100 →
    (pyZfill (pyStrInt (n : ℤ)) 2).data = [Nat.digitChar (n / 10), Nat.digitChar (n % 10)] := by
  decide

lemma render2 (x : ℤ) (h0 : 0 ≤ x) (h1 : x < 100) :
    (pyZfill (pyStrInt x) 2).data = [Nat.digitChar (x.toNat / 10), Nat.digitChar (x.toNat % 10)] := by
  obtain ⟨n, rfl⟩ := Int.eq_ofNat_of_zero_le h0
  exact render2_nat n (by omega)

lemma parse2_nat : ∀ n : ℕ, n < 100 →
    pyIntOfChars [Nat.digitChar (n / 10), Nat.digitChar (n % 10)] = some (n : ℤ) := by
  decide

lemma frame_guard (x n : ℤ) (q : ℚ) (h : x ≤ n) (h2 : (n : ℚ) ≤ q) :
    ¬((x : ℚ) > q) := by
  rw [gt_iff_lt, not_lt]
  have hx : (x : ℚ) ≤ (n : ℚ) := by exact_mod_cast h
  linarith

namespace SMPTE

lemma tcString_data (hr mn sc fr : ℤ) (sp : Char)
    (hhr0 : 0 ≤ hr) (hhr : hr < 100) (hmn0 : 0 ≤ mn) (hmn : mn < 100)
    (hsc0 : 0 ≤ sc) (hsc : sc < 100) :
    (tcString hr mn sc fr (String.mk [sp])).data =
      Nat.digitChar (hr.toNat / 10) :: Nat.digitChar (hr.toNat % 10) :: ':' ::
      Nat.digitChar (mn.toNat / 10) :: Nat.digitChar (mn.toNat % 10) :: ':' ::
      Nat.digitChar (sc.toNat / 10) :: Nat.digitChar (sc.toNat % 10) :: sp ::
      (pyZfill (pyStrInt fr) 2).data := by
  simp only [tcString, String.data_append, render2 hr hhr0 hhr, render2 mn hmn0 hmn,
    render2 sc hsc0 hsc]
  rfl

/-- Parsing the timecode string built from in-range fields recovers each
field (frame-rate guard passing), and yields the exact decode arithmetic
of `getframes`. -/
lemma getframes_tcString_ok (fps : ℚ) (df : Bool) (hr mn sc fr : ℤ) (sp : Char)
    (hhr0 : 0 ≤ hr) (hhr : hr < 100) (hmn0 : 0 ≤ mn) (hmn : mn < 100)
    (hsc0 : 0 ≤ sc) (hsc : sc < 100) (hfr0 : 0 ≤ fr)
    (hguard : ¬((fr : ℚ) > fps)) :
    getframes fps df (tcString hr mn sc fr (String.mk [sp])) =
      if df then
        .ok (pyRound fps * 3600 * hr + pyRound fps * 60 * mn + pyRound fps * sc + fr -
              pyRound (fps * (66666 / 1000000 : ℚ)) * ((60 * hr + mn) - (60 * hr + mn) / 10))
      else
        .ok (((60 * hr + mn) * 60 + sc) * pyRound fps + fr) := by
  have hdata := tcString_data hr mn sc fr sp hhr0 hhr hmn0 hmn hsc0 hsc
  have hdrop9 : (tcString hr mn sc fr (String.mk [sp])).data.drop 9 =
      (pyZfill (pyStrInt fr) 2).data := by rw [hdata]; rfl
  have htake2 : (tcString hr mn sc fr (String.mk [sp])).data.take 2 =
      [Nat.digitChar (hr.toNat / 10), Nat.digitChar (hr.toNat % 10)] := by rw [hdata]; rfl
  have hmn2 : ((tcString hr mn sc fr (String.mk [sp])).data.drop 3).take 2 =
      [Nat.digitChar (mn.toNat / 10), Nat.digitChar (mn.toNat % 10)] := by rw [hdata]; rfl
  have hsc2 : ((tcString hr mn sc fr (String.mk [sp])).data.drop 6).take 2 =
      [Nat.digitChar (sc.toNat / 10), Nat.digitChar (sc.toNat % 10)] := by rw [hdata]; rfl
  have hhrT : ((hr.toNat : ℤ)) = hr := Int.toNat_of_nonneg hhr0
  have hmnT : ((mn.toNat : ℤ)) = mn := Int.toNat_of_nonneg hmn0
  have hscT : ((sc.toNat : ℤ)) = sc := Int.toNat_of_nonneg hsc0
  rw [getframes]
  simp only [hdrop9, htake2, hmn2, hsc2, pyIntOfChars_zfill_render fr hfr0,
    parse2_nat hr.toNat (by omega), parse2_nat mn.toNat (by omega),
    parse2_nat sc.toNat (by omega), hhrT, hmnT, hscT]
  rw [if_neg hguard]

end SMPTE

/-! ### Rate constants for the supported drop-frame rates 29.97 and 59.94 -/

lemma r2997_drop : pyRound ((2997:ℚ)/100 * (66666 / 1000000 : ℚ)) = 2 := by
  have h : pyRound ((2997:ℚ)/100 * (66666 / 1000000 : ℚ)) = 1 + 1 := by
    apply pyRound_hi
    · rw [Int.floor_eq_iff]
      norm_num
    · norm_num
  simpa using h

lemma r2997_base : pyRound ((2997:ℚ)/100) = 30 := by
  have h : pyRound ((2997:ℚ)/100) = 29 + 1 := by
    apply pyRound_hi
    · rw [Int.floor_eq_iff]
      norm_num
    · norm_num
  simpa using h

lemma r2997_hour : pyRound ((2997:ℚ)/100 * 3600) = 107892 := by
  apply pyRound_lo
  · rw [Int.floor_eq_iff]
    norm_num
  · norm_num

lemma r2997_ten : pyRound ((2997:ℚ)/100 * 600) = 17982 := by
  apply pyRound_lo
  · rw [Int.floor_eq_iff]
    norm_num
  · norm_num

lemma r5994_drop : pyRound ((5994:ℚ)/100 * (66666 / 1000000 : ℚ)) = 4 := by
  have h : pyRound ((5994:ℚ)/100 * (66666 / 1000000 : ℚ)) = 3 + 1 := by
    apply pyRound_hi
    · rw [Int.floor_eq_iff]
      norm_num
    · norm_num
  simpa using h

lemma r5994_base : pyRound ((5994:ℚ)/100) = 60 := by
  have h : pyRound ((5994:ℚ)/100) = 59 + 1 := by
    apply pyRound_hi
    · rw [Int.floor_eq_iff]
      norm_num
    · norm_num
  simpa using h

lemma r5994_hour : pyRound ((5994:ℚ)/100 * 3600) = 215784 := by
  apply pyRound_lo
  · rw [Int.floor_eq_iff]
    norm_num
  · norm_num

lemma r5994_ten : pyRound ((5994:ℚ)/100 * 600) = 35964 := by
  apply pyRound_lo
  · rw [Int.floor_eq_iff]
    norm_num
  · norm_num

namespace SMPTE

/-- Drop-frame round trip at 29.97 fps for frame counts below 24 hours. -/
lemma roundtrip_df_2997 (f : ℕ) (hf : f < 2589408) :
    getframes (2997/100) true (gettc (2997/100) true (f : ℤ)) = .ok (f : ℤ) := by
  simp only [gettc, r2997_drop, r2997_base, r2997_hour, r2997_ten, Int.natAbs_ofNat,
    if_true]
  rw [show (";" : String) = String.mk [';'] from rfl]
  have h24 : ((f:ℕ):ℤ) % (107892 * 24) = ((f:ℕ):ℤ) := by omega
  rw [h24]
  by_cases hm : ((f:ℤ) % 17982 > 2)
  · rw [if_pos hm]
    rw [getframes_tcString_ok]
    · rw [if_pos rfl, r2997_base, r2997_drop]
      congr 1
      have hnorm : ((30:ℤ)*60 - 2) = 1798 := by norm_num
      rw [hnorm]
      obtain ⟨d, m, hdm, hm0, hm1⟩ : ∃ d m, (f:ℤ) = 17982*d + m ∧ 0 ≤ m ∧ m < 17982 :=
        ⟨(f:ℤ)/17982, (f:ℤ)%17982, by omega, by omega, by omega⟩
      obtain ⟨q, r, hqr, hr0, hr1⟩ : ∃ q r, m - 2 = 1798*q + r ∧ 0 ≤ r ∧ r < 1798 :=
        ⟨(m-2)/1798, (m-2)%1798, by omega, by omega, by omega⟩
      obtain ⟨s, t, hst, ht0, ht1⟩ : ∃ s t, r + 2 = 30*s + t ∧ 0 ≤ t ∧ t < 30 :=
        ⟨(r+2)/30, (r+2)%30, by omega, by omega, by omega⟩
      have h1 : (f:ℤ) + 2*9*((f:ℤ)/17982) + 2*(((f:ℤ)%17982 - 2)/1798) =
          1800*(10*d+q) + (30*s + t) := by omega
      rw [h1]
      have h30 : (1800*(10*d+q) + (30*s + t))/30 = 60*(10*d+q) + s := by omega
      rw [h30]
      have h60 : (60*(10*d+q) + s)/60 = 10*d+q := by omega
      rw [h60]
      have hs : (60*(10*d+q) + s) % 60 = s := by omega
      rw [hs]
      have hfr : (1800*(10*d+q) + (30*s + t)) % 30 = t := by omega
      rw [hfr]
      have hTM : 60*((10*d+q)/60) + (10*d+q)%60 = 10*d+q := by omega
      rw [hTM]
      have h10 : (10*d+q)/10 = d := by omega
      rw [h10]
      omega
    · omega
    · omega
    · omega
    · omega
    · omega
    · omega
    · omega
    · exact frame_guard _ 29 _ (by omega) (by norm_num)
  · rw [if_neg hm]
    rw [getframes_tcString_ok]
    · rw [if_pos rfl, r2997_base, r2997_drop]
      congr 1
      obtain ⟨d, m, hdm, hm0, hm1⟩ : ∃ d m, (f:ℤ) = 17982*d + m ∧ 0 ≤ m ∧ m ≤ 2 :=
        ⟨(f:ℤ)/17982, (f:ℤ)%17982, by omega, by omega, by omega⟩
      have h1 : (f:ℤ) + 2*9*((f:ℤ)/17982) = 1800*(10*d) + m := by omega
      rw [h1]
      have h30 : (1800*(10*d) + m)/30 = 60*(10*d) := by omega
      rw [h30]
      have h60 : (60*(10*d))/60 = 10*d := by omega
      rw [h60]
      have hs : (60*(10*d)) % 60 = 0 := by omega
      rw [hs]
      have hfr : (1800*(10*d) + m) % 30 = m := by omega
      rw [hfr]
      have hTM : 60*((10*d)/60) + (10*d)%60 = 10*d := by omega
      rw [hTM]
      have h10 : (10*d)/10 = d := by omega
      rw [h10]
      omega
    · omega
    · omega
    · omega
    · omega
    · omega
    · omega
    · omega
    · exact frame_guard _ 29 _ (by omega) (by norm_num)

/-- Drop-frame round trip at 59.94 fps for frame counts below 24 hours. -/
lemma roundtrip_df_5994 (f : ℕ) (hf : f < 5178816) :
    getframes (5994/100) true (gettc (5994/100) true (f : ℤ)) = .ok (f : ℤ) := by
  simp only [gettc, r5994_drop, r5994_base, r5994_hour, r5994_ten, Int.natAbs_ofNat,
    if_true]
  rw [show (";" : String) = String.mk [';'] from rfl]
  have h24 : ((f:ℕ):ℤ) % (215784 * 24) = ((f:ℕ):ℤ) := by omega
  rw [h24]
  by_cases hm : ((f:ℤ) % 35964 > 4)
  · rw [if_pos hm]
    rw [getframes_tcString_ok]
    · rw [if_pos rfl, r5994_base, r5994_drop]
      congr 1
      have hnorm : ((60:ℤ)*60 - 4) = 3596 := by norm_num
      rw [hnorm]
      obtain ⟨d, m, hdm, hm0, hm1⟩ : ∃ d m, (f:ℤ) = 35964*d + m ∧ 0 ≤ m ∧ m < 35964 :=
        ⟨(f:ℤ)/35964, (f:ℤ)%35964, by omega, by omega, by omega⟩
      obtain ⟨q, r, hqr, hr0, hr1⟩ : ∃ q r, m - 4 = 3596*q + r ∧ 0 ≤ r ∧ r < 3596 :=
        ⟨(m-4)/3596, (m-4)%3596, by omega, by omega, by omega⟩
      obtain ⟨s, t, hst, ht0, ht1⟩ : ∃ s t, r + 4 = 60*s + t ∧ 0 ≤ t ∧ t < 60 :=
        ⟨(r+4)/60, (r+4)%60, by omega, by omega, by omega⟩
      have h1 : (f:ℤ) + 4*9*((f:ℤ)/35964) + 4*(((f:ℤ)%35964 - 4)/3596) =
          3600*(10*d+q) + (60*s + t) := by omega
      rw [h1]
      have h30 : (3600*(10*d+q) + (60*s + t))/60 = 60*(10*d+q) + s := by omega
      rw [h30]
      have h60 : (60*(10*d+q) + s)/60 = 10*d+q := by omega
      rw [h60]
      have hs : (60*(10*d+q) + s) % 60 = s := by omega
      rw [hs]
      have hfr : (3600*(10*d+q) + (60*s + t)) % 60 = t := by omega
      rw [hfr]
      have hTM : 60*((10*d+q)/60) + (10*d+q)%60 = 10*d+q := by omega
      rw [hTM]
      have h10 : (10*d+q)/10 = d := by omega
      rw [h10]
      omega
    · omega
    · omega
    · omega
    · omega
    · omega
    · omega
    · omega
    · exact frame_guard _ 59 _ (by omega) (by norm_num)
  · rw [if_neg hm]
    rw [getframes_tcString_ok]
    · rw [if_pos rfl, r5994_base, r5994_drop]
      congr 1
      obtain ⟨d, m, hdm, hm0, hm1⟩ : ∃ d m, (f:ℤ) = 35964*d + m ∧ 0 ≤ m ∧ m ≤ 4 :=
        ⟨(f:ℤ)/35964, (f:ℤ)%35964, by omega, by omega, by omega⟩
      have h1 : (f:ℤ) + 4*9*((f:ℤ)/35964) = 3600*(10*d) + m := by omega
      rw [h1]
      have h30 : (3600*(10*d) + m)/60 = 60*(10*d) := by omega
      rw [h30]
      have h60 : (60*(10*d))/60 = 10*d := by omega
      rw [h60]
      have hs : (60*(10*d)) % 60 = 0 := by omega
      rw [hs]
      have hfr : (3600*(10*d) + m) % 60 = m := by omega
      rw [hfr]
      have hTM : 60*((10*d)/60) + (10*d)%60 = 10*d := by omega
      rw [hTM]
      have h10 : (10*d)/10 = d := by omega
      rw [h10]
      omega
    · omega
    · omega
    · omega
    · omega
    · omega
    · omega
    · omega
    · exact frame_guard _ 59 _ (by omega) (by norm_num)

/-- Non-drop-frame round trip: any rate whose Python-rounded value is a
positive integer `R`, for frame counts below 100 hours (`360000 * R`). -/
lemma roundtrip_ndf (fps : ℚ) (f : ℕ) (hR : 1 ≤ pyRound fps)
    (hf : (f : ℤ) < 360000 * pyRound fps) :
    getframes fps false (gettc fps false (f : ℤ)) = .ok (f : ℤ) := by
  have hRq : (pyRound fps : ℚ) ≤ fps + 1/2 := pyRound_le_add_half fps
  simp only [gettc, Int.natAbs_ofNat, Bool.false_eq_true, if_false]
  rw [show (":" : String) = String.mk [':'] from rfl]
  set R := pyRound fps with hRdef
  have hR0 : (0:ℤ) < R := by omega
  have h3600 : (0:ℤ) < R * 3600 := by omega
  have h60 : (0:ℤ) < R * 60 := by omega
  set hr := (↑f : ℤ) / (R * 3600) with hhr
  set a := (↑f : ℤ) - hr * (R * 3600) with ha
  set mn := a / (R * 60) with hmn
  set b := a - mn * (R * 60) with hb
  set sc := b / R with hsc
  set fr := b - sc * R with hfr
  have haMod : a = (↑f : ℤ) % (R * 3600) := by
    rw [ha, Int.emod_def]; ring
  have ha0 : 0 ≤ a := by rw [haMod]; exact Int.emod_nonneg _ (by omega)
  have ha1 : a < R * 3600 := by rw [haMod]; exact Int.emod_lt_of_pos _ h3600
  have hbMod : b = a % (R * 60) := by
    rw [hb, Int.emod_def]; ring
  have hb0 : 0 ≤ b := by rw [hbMod]; exact Int.emod_nonneg _ (by omega)
  have hb1 : b < R * 60 := by rw [hbMod]; exact Int.emod_lt_of_pos _ h60
  have hfrMod : fr = b % R := by
    rw [hfr, Int.emod_def]; ring
  have hfr0 : 0 ≤ fr := by rw [hfrMod]; exact Int.emod_nonneg _ (by omega)
  have hfr1 : fr < R := by rw [hfrMod]; exact Int.emod_lt_of_pos _ hR0
  have hhr0 : 0 ≤ hr := Int.ediv_nonneg (by omega) (by omega)
  have hhr1 : hr < 100 := by
    rw [hhr]
    rw [Int.ediv_lt_iff_lt_mul h3600]
    omega
  have hmn0 : 0 ≤ mn := Int.ediv_nonneg ha0 (by omega)
  have hmn1 : mn < 60 := by
    rw [hmn]
    rw [Int.ediv_lt_iff_lt_mul h60]
    omega
  have hsc0 : 0 ≤ sc := Int.ediv_nonneg hb0 (by omega)
  have hsc1 : sc < 60 := by
    rw [hsc]
    rw [Int.ediv_lt_iff_lt_mul hR0]
    omega
  rw [getframes_tcString_ok fps false hr mn sc fr ':' hhr0 (by omega) hmn0 (by omega)
    hsc0 (by omega) hfr0 ?_]
  · rw [if_neg (by simp)]
    congr 1
    have hfval : (↑f : ℤ) = hr * (R * 3600) + a := by rw [ha]; ring
    have haval : a = mn * (R * 60) + b := by rw [hb]; ring
    have hbval : b = sc * R + fr := by rw [hfr]; ring
    rw [← hRdef]
    linear_combination hfval + haval + hbval
  · apply frame_guard fr (R - 1) fps (by omega)
    push_cast
    linarith

end SMPTE

/-! ### Element model and identity scheme -/

/-- Python `a or b` on optional integers: `b` when `a` is missing (`None`)
or equal to `0` (both falsy), otherwise the value of `a`. -/
def pyOrInt (a : Option ℤ) (b : ℤ) : ℤ :=
  match a with
  | some v => if v = 0 then b else v
  | none => b

/-- One timed text element, as the dictionaries the source builds per
clip.  Keys read with `clip.get(key, default)` whose key may be absent are
`Option`s; `type` carries the `get('type', 'Unknown')` default, and
`start_frame`, `end_frame`, `text` are present on every element the
program constructs, hence plain fields. -/
structure Clip where
  type : String := "Unknown"
  track_idx : Option ℤ := none
  track_index : Option ℤ := none
  start_frame : ℤ := 0
  end_frame : ℤ := 0
  node_name : String := ""
  layer_num : Option ℤ := none
  layer_index : Option ℤ := none
  node_path : Option String := none
  text : String := ""
  edited_text : Option String := none
deriving DecidableEq

/-- `clip.get("edited_text", clip["text"])`: the current text of an
element, the edited text when that key is present. -/
def getText (c : Clip) : String :=
  c.edited_text.getD c.text

/-- Python `str.replace` specialised to a single-character pattern and a
single-character replacement, which is exactly a per-character map. -/
def pyReplaceChar (s : String) (c r : Char) : String :=
  String.mk (s.data.map (fun x => if x = c then r else x))

namespace SubtitleEditor

/-- `SubtitleEditor._sanitize_node_name_for_id`. -/
def sanitize_node_name_for_id (name : String) : String :=
  if name = "" then "Unnamed"
  else pyReplaceChar (pyReplaceChar (pyReplaceChar (pyReplaceChar name '.' '_') '/' '_') '\\' '_') ',' '_'

/-- `SubtitleEditor.generate_unique_id`. -/
def generate_unique_id (c : Clip) : String :=
  let track := pyOrInt c.track_idx (c.track_index.getD 0)
  let start := c.start_frame
  if c.type = "Subtitle" then
    "SUB_" ++ pyStrInt track ++ "_" ++ pyStrInt start
  else if c.type = "Text+" then
    "TEXTPLUS_" ++ pyStrInt track ++ "_" ++ pyStrInt start ++ "_" ++
      sanitize_node_name_for_id c.node_name
  else if c.type = "MultiText" then
    let layer := pyOrInt c.layer_num (c.layer_index.getD 0)
    "MULTI_" ++ pyStrInt track ++ "_" ++ pyStrInt start ++ "_" ++
      sanitize_node_name_for_id c.node_name ++ "_L" ++ pyStrInt layer
  else if c.type = "Fusion" ∨ c.type = "Fusion Macro" then
    "FUSION_" ++ pyStrInt track ++ "_" ++ pyStrInt start ++ "_" ++
      sanitize_node_name_for_id (c.node_path.getD "root")
  else
    "UNKNOWN_" ++ pyStrInt track ++ "_" ++ pyStrInt start

end SubtitleEditor

/-! ### Round-trip import matching -/

/-- One parsed CSV import row (the per-uid dictionaries the importer
builds, with `get(..., "")` defaults). -/
structure ImportRow where
  new_text : String := ""
  element_type : String := ""
  original_text : String := ""
deriving DecidableEq

namespace SubtitleEditor

/-- `SubtitleEditor.match_clips_with_import`: iterate the import rows in
order; skip rows with empty `new_text` or a declared type outside the
filter; pair each remaining row with the first clip of a filtered type
whose generated id equals the row's uid, else record the uid as
not-found. -/
def match_clips_with_import (import_data : List (String × ImportRow))
    (type_filters : List String) (all_clips : List Clip) :
    List (Clip × String) × List String :=
  match import_data with
  | [] => ([], [])
  | (uid, data) :: rest =>
    let tail := match_clips_with_import rest type_filters all_clips
    if data.new_text = "" then tail
    else if data.element_type ≠ "" ∧ data.element_type ∉ type_filters then tail
    else
      match all_clips.find? (fun c =>
          type_filters.contains c.type && (generate_unique_id c == uid)) with
      | some clip => ((clip, data.new_text) :: tail.1, tail.2)
      | none => (tail.1, uid :: tail.2)

end SubtitleEditor

/-- Spec-side phrasing (§4.3 matching contract): the rows considered are
exactly those whose `new_text` is non-empty and whose declared type is
absent or within the filter. -/
def specConsidered (import_data : List (String × ImportRow))
    (type_filters : List String) : List (String × ImportRow) :=
  import_data.filter (fun row =>
    (row.2.new_text != "") && (row.2.element_type == "" || type_filters.contains row.2.element_type))

/-- Spec-side phrasing (§4.3 matching contract): the first live element of
a filtered kind whose derived id equals the row's uid. -/
def specFindMatch (all_clips : List Clip) (type_filters : List String)
    (uid : String) : Option Clip :=
  all_clips.find? (fun c =>
    type_filters.contains c.type && (SubtitleEditor.generate_unique_id c == uid))

/-! ### Text transform primitives -/

/-- Python whitespace (the ASCII part relevant to this program's inputs). -/
def isPySpace (c : Char) : Bool :=
  c == ' ' || c == '\t' || c == '\n' || c == '\x0d' || c == '\x0b' || c == '\x0c'

/-- Python `str.strip()`. -/
def pyStrip (s : String) : String :=
  String.mk (((s.data.dropWhile isPySpace).reverse.dropWhile isPySpace).reverse)

/-- Worker for Python `str.split()` (split on whitespace runs, no empty
parts); the accumulator holds the current word reversed. -/
def wordsAux : List Char → List Char → List (List Char)
  | [], acc => if acc = [] then [] else [acc.reverse]
  | c :: rest, acc =>
    if isPySpace c then
      if acc = [] then wordsAux rest [] else acc.reverse :: wordsAux rest []
    else wordsAux rest (c :: acc)

/-- Python `str.split()` with no arguments. -/
def pyWords (s : String) : List String :=
  (wordsAux s.data []).map String.mk

/-- Whether `pat` is an initial segment of `cs`. -/
def startsWithChars : List Char → List Char → Bool
  | [], _ => true
  | _ :: _, [] => false
  | p :: ps, c :: cs => p == c && startsWithChars ps cs

/-- Python `pat in s` (substring occurrence). -/
def containsSubChars : List Char → List Char → Bool
  | [], pat => startsWithChars pat []
  | c :: t, pat => startsWithChars pat (c :: t) || containsSubChars t pat

/-- Python `search_text in current_text`. -/
def pyContains (s pat : String) : Bool :=
  containsSubChars s.data pat.data

/-- Python `str.replace` scan: at each position, if the (non-empty)
pattern matches, emit the replacement and skip the pattern, else emit one
character.  Fuel is the number of scan steps; each step consumes at least
one character, so `cs.length` steps always suffice. -/
def replaceChars (fuel : ℕ) (cs pat rep : List Char) : List Char :=
  match fuel with
  | 0 => cs
  | fuel + 1 =>
    match cs with
    | [] => []
    | c :: t =>
      if startsWithChars pat (c :: t) then
        rep ++ replaceChars fuel ((c :: t).drop pat.length) pat rep
      else c :: replaceChars fuel t pat rep

/-- Python `s.replace(pat, rep)` for a non-empty pattern (every call in
the embedded code paths is guarded by a non-empty search term). -/
def pyReplace (s pat rep : String) : String :=
  if pat.data = [] then s
  else String.mk (replaceChars s.data.length s.data pat.data rep.data)

/-- Python `str.upper()` on one character, covering the character classes
the sentence-case regex can match (ASCII letters and Cyrillic а-я). -/
def pyUpperChar (c : Char) : Char :=
  if 'a' ≤ c ∧ c ≤ 'z' then Char.ofNat (c.toNat - 32)
  else if 'а' ≤ c ∧ c ≤ 'я' then Char.ofNat (c.toNat - 32)
  else c

/-- The character class `[a-zA-Zа-яА-Я]` of the sentence-case regex. -/
def isSentenceLetter (c : Char) : Bool :=
  ('a' ≤ c && c ≤ 'z') || ('A' ≤ c && c ≤ 'Z') || ('а' ≤ c && c ≤ 'я') || ('А' ≤ c && c ≤ 'Я')

/-- The sentence-terminator class `[.!?]` of the sentence-case regex. -/
def isSentencePunct (c : Char) : Bool :=
  c == '.' || c == '!' || c == '?'

/-- Left-to-right scan implementing the matches of the regex
`(?:^|[.!?]\s+)([a-zA-Zа-яА-Я])` at positions after the start: at a
terminator followed by at least one whitespace and then a class letter,
the matched letter is uppercased (the replacement is `group(0).upper()`,
which only changes that letter) and scanning resumes after it; everything
else is copied unchanged.  Fuel as in `replaceChars`. -/
def scanSC (fuel : ℕ) (cs : List Char) : List Char :=
  match fuel with
  | 0 => cs
  | fuel + 1 =>
    match cs with
    | [] => []
    | c :: rest =>
      if isSentencePunct c then
        match rest.takeWhile isPySpace, rest.dropWhile isPySpace with
        | _ :: _, l :: rest3 =>
          if isSentenceLetter l then
            c :: (rest.takeWhile isPySpace ++ pyUpperChar l :: scanSC fuel rest3)
          else c :: scanSC fuel rest
        | _, _ => c :: scanSC fuel rest
      else c :: scanSC fuel rest

namespace SubtitleEditor

/-- The nested `sentence_case` function of
`SubtitleEditor.on_clean_punctuation` (case mode 4): strip, then
`re.sub` with the pattern above, which uppercases the first class letter
of the string and the first class letter after a terminator plus
whitespace. -/
def sentence_case (s : String) : String :=
  let st := (pyStrip s).data
  match st with
  | [] => String.mk []
  | c :: rest =>
    if isSentenceLetter c then String.mk (pyUpperChar c :: scanSC rest.length rest)
    else String.mk (scanSC st.length st)

/-- The `Contains`-mode, `match_case = True` pass of
`SubtitleEditor.on_replace_all`: elements failing an active type filter
are skipped; an element whose current text contains the search term gets
`edited_text` set to the replaced text and is counted. -/
def on_replace_all (search_text replace_text : String)
    (selected_type_filter : String) (clips : List Clip) : List Clip × ℕ :=
  match clips with
  | [] => ([], 0)
  | clip :: rest =>
    let tail := on_replace_all search_text replace_text selected_type_filter rest
    if selected_type_filter ≠ "All" ∧ clip.type ≠ selected_type_filter then
      (clip :: tail.1, tail.2)
    else
      let current := getText clip
      if pyContains current search_text then
        ({ clip with edited_text := some (pyReplace current search_text replace_text) } :: tail.1,
          tail.2 + 1)
      else (clip :: tail.1, tail.2)

end SubtitleEditor

/-! ### Split and merge of subtitle spans -/

/-- Python `str.lower()` on one character (ASCII and Cyrillic ranges, the
characters this program compares). -/
def pyLowerChar (c : Char) : Char :=
  if 'A' ≤ c ∧ c ≤ 'Z' then Char.ofNat (c.toNat + 32)
  else if 'А' ≤ c ∧ c ≤ 'Я' then Char.ofNat (c.toNat + 32)
  else c

/-- Python `str.lower()`. -/
def pyLower (s : String) : String :=
  String.mk (s.data.map pyLowerChar)

/-- Python `int(s)` on a string: optional sign followed by decimal
digits; anything else raises `ValueError` (modelled as `none`). -/
def pyParseInt (s : String) : Option ℤ :=
  match s.data with
  | '-' :: rest => (pyIntOfChars rest).map (fun v => -v)
  | '+' :: rest => pyIntOfChars rest
  | _ => pyIntOfChars s.data

/-- The comparison `clips.sort(key=lambda x: x["start_frame"])` sorts by. -/
def startLE (a b : Clip) : Prop := a.start_frame ≤ b.start_frame

instance : DecidableRel startLE := fun a b => inferInstanceAs (Decidable (a.start_frame ≤ b.start_frame))

instance : IsTotal Clip startLE := ⟨fun a b => Int.le_total a.start_frame b.start_frame⟩

instance : IsTrans Clip startLE := ⟨fun _ _ _ h1 h2 => Int.le_trans h1 h2⟩

/-- Stable sort of clips by `start_frame`; insertion sort is stable, so it
computes the same list as Python's stable `list.sort(key=start_frame)`. -/
def sortByStart (l : List Clip) : List Clip := List.insertionSort startLE l

/-- Python `sep.join(parts)`. -/
def pyJoin (sep : String) : List String → String
  | [] => ""
  | [p] => p
  | p :: ps => p ++ sep ++ pyJoin sep ps

namespace SubtitleEditor

/-- `SubtitleEditor.split_subtitle`, with the dialog interaction replaced
by its two inputs: the selected clip and the raw split-position string
(the handler strips it on read).  The early status-bar returns that leave
`all_clips` unchanged are modelled as `none`. -/
def split_subtitle (clip : Clip) (split_pos : String) (all_clips : List Clip) :
    Option (List Clip) :=
  if clip.type ≠ "Subtitle" then none
  else
    let sp := pyStrip split_pos
    let original_text := getText clip
    let words := pyWords original_text
    if words = [] then none
    else
      let split_idx? : Option ℤ :=
        if pyLower sp = "auto" then some ((words.length : ℤ) / 2)
        else
          match pyParseInt sp with
          | none => none
          | some k => if k < 1 ∨ (words.length : ℤ) ≤ k then none else some k
      match split_idx? with
      | none => none
      | some k =>
        let text1 := pyStrip (pyJoin " " (words.take k.toNat))
        let text2 := pyStrip (pyJoin " " (words.drop k.toNat))
        if text1 = "" ∨ text2 = "" then none
        else
          let duration := clip.end_frame - clip.start_frame
          let mid_frame := clip.start_frame + duration / 2
          let new_clip1 := { clip with
            text := text1
            edited_text := some text1
            end_frame := mid_frame }
          let new_clip2 := { clip with
            text := text2
            edited_text := some text2
            start_frame := mid_frame }
          some ((all_clips.erase clip) ++ [new_clip1, new_clip2])

/-- `SubtitleEditor.merge_subtitles`, with the tree-selection replaced by
the list of selected clips.  Early returns that leave `all_clips`
unchanged (fewer than two clips, a non-subtitle among them, a too-large
gap between consecutive spans) are modelled as `none`. -/
def merge_subtitles (selected : List Clip) (timeline_fps : ℚ)
    (all_clips : List Clip) : Option (List Clip) :=
  if selected.length < 2 then none
  else if selected.any (fun c => c.type != "Subtitle") then none
  else
    let clips := sortByStart selected
    let max_gap_frames := pyTruncInt (2 * timeline_fps)
    if (clips.zip clips.tail).any
        (fun p => decide (p.2.start_frame - p.1.end_frame > max_gap_frames)) then none
    else
      match clips with
      | [] => none
      | c0 :: rest =>
        let merged_text := pyJoin " " ((c0 :: rest).map getText)
        let new_clip := { c0 with
          text := merged_text
          edited_text := some merged_text
          start_frame := c0.start_frame
          end_frame := ((c0 :: rest).getLast (by simp)).end_frame }
        some (((c0 :: rest).foldl (fun acc c => acc.erase c) all_clips) ++ [new_clip])

end SubtitleEditor

namespace SMPTE

lemma tcString_parse_fields (hr mn sc fr : ℤ) (sp : Char)
    (hhr0 : 0 ≤ hr) (hhr : hr < 100) (hmn0 : 0 ≤ mn) (hmn : mn < 100)
    (hsc0 : 0 ≤ sc) (hsc : sc < 100) (hfr0 : 0 ≤ fr) :
    pyIntOfChars ((tcString hr mn sc fr (String.mk [sp])).data.take 2) = some hr ∧
    pyIntOfChars (((tcString hr mn sc fr (String.mk [sp])).data.drop 3).take 2) = some mn ∧
    pyIntOfChars (((tcString hr mn sc fr (String.mk [sp])).data.drop 6).take 2) = some sc ∧
    pyIntOfChars ((tcString hr mn sc fr (String.mk [sp])).data.drop 9) = some fr := by
  have hdata := tcString_data hr mn sc fr sp hhr0 hhr hmn0 hmn hsc0 hsc
  refine ⟨?_, ?_, ?_, ?_⟩
  · rw [show (tcString hr mn sc fr (String.mk [sp])).data.take 2 =
        [Nat.digitChar (hr.toNat / 10), Nat.digitChar (hr.toNat % 10)] from by rw [hdata]; rfl]
    rw [parse2_nat hr.toNat (by omega), Int.toNat_of_nonneg hhr0]
  · rw [show ((tcString hr mn sc fr (String.mk [sp])).data.drop 3).take 2 =
        [Nat.digitChar (mn.toNat / 10), Nat.digitChar (mn.toNat % 10)] from by rw [hdata]; rfl]
    rw [parse2_nat mn.toNat (by omega), Int.toNat_of_nonneg hmn0]
  · rw [show ((tcString hr mn sc fr (String.mk [sp])).data.drop 6).take 2 =
        [Nat.digitChar (sc.toNat / 10), Nat.digitChar (sc.toNat % 10)] from by rw [hdata]; rfl]
    rw [parse2_nat sc.toNat (by omega), Int.toNat_of_nonneg hsc0]
  · rw [show (tcString hr mn sc fr (String.mk [sp])).data.drop 9 =
        (pyZfill (pyStrInt fr) 2).data from by rw [hdata]; rfl]
    exact pyIntOfChars_zfill_render fr hfr0

/-- At 29.97 drop-frame no input frame encodes to minute one, second
zero, frame zero or one: those two display positions are dropped. -/
lemma gettc_2997_never_aux (f x : ℤ) (hx : x = 0 ∨ x = 1) :
    gettc (2997/100) true f ≠ tcString 0 1 0 x (String.mk [';']) := by
  simp only [gettc, r2997_drop, r2997_base, r2997_hour, r2997_ten, if_true]
  rw [show (";" : String) = String.mk [';'] from rfl]
  set g := ((f.natAbs : ℕ) : ℤ) % (107892 * 24) with hgdef
  have hg0 : 0 ≤ g := Int.emod_nonneg _ (by norm_num)
  have hg1 : g < 2589408 := by
    have h := Int.emod_lt_of_pos ((f.natAbs : ℕ) : ℤ) (show (0:ℤ) < 107892 * 24 by norm_num)
    omega
  obtain ⟨p1, p2, p3, p4⟩ := tcString_parse_fields 0 1 0 x ';'
    (by omega) (by omega) (by omega) (by omega) (by omega) (by omega) (by omega)
  by_cases hm : (g % 17982 > 2)
  · rw [if_pos hm]
    rw [show ((30:ℤ)*60 - 2) = 1798 from by norm_num]
    intro hEq
    set F := g + 2*9*(g/17982) + 2*((g%17982 - 2)/1798) with hFdef
    obtain ⟨e1, e2, e3, e4⟩ := tcString_parse_fields (F/30/60/60) (F/30/60 % 60)
      (F/30 % 60) (F % 30) ';'
      (by omega) (by omega) (by omega) (by omega) (by omega) (by omega) (by omega)
    have c1 := congrArg (fun s => pyIntOfChars (s.data.take 2)) hEq
    have c2 := congrArg (fun s => pyIntOfChars ((s.data.drop 3).take 2)) hEq
    have c3 := congrArg (fun s => pyIntOfChars ((s.data.drop 6).take 2)) hEq
    have c4 := congrArg (fun s => pyIntOfChars (s.data.drop 9)) hEq
    simp only at c1 c2 c3 c4
    rw [e1, p1] at c1
    rw [e2, p2] at c2
    rw [e3, p3] at c3
    rw [e4, p4] at c4
    simp only [Option.some.injEq] at c1 c2 c3 c4
    obtain ⟨d, m, hdm, hm0, hm1⟩ : ∃ d m, g = 17982*d + m ∧ 0 ≤ m ∧ m < 17982 :=
      ⟨g/17982, g%17982, by omega, by omega, by omega⟩
    obtain ⟨q, r, hqr, hr0, hr1⟩ : ∃ q r, m - 2 = 1798*q + r ∧ 0 ≤ r ∧ r < 1798 :=
      ⟨(m-2)/1798, (m-2)%1798, by omega, by omega, by omega⟩
    obtain ⟨s, t, hst, ht0, ht1⟩ : ∃ s t, r + 2 = 30*s + t ∧ 0 ≤ t ∧ t < 30 :=
      ⟨(r+2)/30, (r+2)%30, by omega, by omega, by omega⟩
    have h1 : F = 1800*(10*d+q) + (30*s + t) := by omega
    rw [h1] at c1 c2 c3 c4
    have h30 : (1800*(10*d+q) + (30*s + t))/30 = 60*(10*d+q) + s := by omega
    rw [h30] at c1 c2 c3
    have h60 : (60*(10*d+q) + s)/60 = 10*d+q := by omega
    rw [h60] at c1 c2
    omega
  · rw [if_neg hm]
    intro hEq
    set F := g + 2*9*(g/17982) with hFdef
    obtain ⟨e1, e2, e3, e4⟩ := tcString_parse_fields (F/30/60/60) (F/30/60 % 60)
      (F/30 % 60) (F % 30) ';'
      (by omega) (by omega) (by omega) (by omega) (by omega) (by omega) (by omega)
    have c2 := congrArg (fun s => pyIntOfChars ((s.data.drop 3).take 2)) hEq
    simp only at c2
    rw [e2, p2] at c2
    simp only [Option.some.injEq] at c2
    obtain ⟨d, m, hdm, hm0, hm1⟩ : ∃ d m, g = 17982*d + m ∧ 0 ≤ m ∧ m ≤ 2 :=
      ⟨g/17982, g%17982, by omega, by omega, by omega⟩
    have h1 : F = 1800*(10*d) + m := by omega
    rw [h1] at c2
    have h30 : (1800*(10*d) + m)/30 = 60*(10*d) := by omega
    rw [h30] at c2
    have h60 : (60*(10*d))/60 = 10*d := by omega
    rw [h60] at c2
    omega

end SMPTE

namespace SMPTE

/-- The rate-mismatch branch of `getframes`: a frame field exceeding the
rate raises before any other field is read. -/
lemma getframes_tcString_err (fps : ℚ) (df : Bool) (hr mn sc fr : ℤ) (sp : Char)
    (hhr0 : 0 ≤ hr) (hhr : hr < 100) (hmn0 : 0 ≤ mn) (hmn : mn < 100)
    (hsc0 : 0 ≤ sc) (hsc : sc < 100) (hfr0 : 0 ≤ fr)
    (hguard : (fr : ℚ) > fps) :
    getframes fps df (tcString hr mn sc fr (String.mk [sp])) =
      .error "SMPTE timecode to frame rate mismatch." := by
  have hdata := tcString_data hr mn sc fr sp hhr0 hhr hmn0 hmn hsc0 hsc
  have hdrop9 : (tcString hr mn sc fr (String.mk [sp])).data.drop 9 =
      (pyZfill (pyStrInt fr) 2).data := by rw [hdata]; rfl
  rw [getframes]
  simp only [hdrop9, pyIntOfChars_zfill_render fr hfr0]
  rw [if_pos hguard]

end SMPTE

/-! ### Claim theorems: timecode engine -/

/-- C1 counterexample: the claimed round trip fails at 29.97 drop-frame
for frame count 2589408 (24 hours), because the encoder wraps modulo
`framesPer24Hours`: decoding its timecode returns 0, not 2589408. -/
theorem C1_counterexample :
    SMPTE.getframes (2997/100) true (SMPTE.gettc (2997/100) true 2589408) = .ok 0 ∧
    SMPTE.getframes (2997/100) true (SMPTE.gettc (2997/100) true 2589408) ≠ .ok 2589408 := by
  have h1 : SMPTE.gettc (2997/100) true 2589408 = "00:00:00;00" := by
    simp only [SMPTE.gettc, r2997_drop, r2997_base, r2997_hour, r2997_ten, if_true]
    decide
  have h2 : SMPTE.getframes (2997/100) true "00:00:00;00" = .ok 0 := by
    rw [show ("00:00:00;00" : String) = SMPTE.tcString 0 0 0 0 (String.mk [';']) from by decide]
    rw [SMPTE.getframes_tcString_ok (2997/100) true 0 0 0 0 ';' (by norm_num) (by norm_num)
      (by norm_num) (by norm_num) (by norm_num) (by norm_num) (by norm_num)
      (frame_guard 0 0 _ (by norm_num) (by norm_num))]
    rw [if_pos rfl, r2997_base, r2997_drop]
    congr 1
  constructor
  · rw [h1, h2]
  · rw [h1, h2]
    intro h
    exact absurd (Except.ok.inj h) (by norm_num)

/-- C1 (amended): the round trip `timecode_to_frames ∘ frames_to_timecode`
is the identity on the in-range frame counts: in non-drop-frame mode for
every rate rounding to a positive integer `R` and every frame count below
100 hours (`360000 * R`, where the two-digit hour field stays parseable);
in drop-frame mode at the supported rates 29.97 and 59.94 for every frame
count below 24 hours (`framesPer24Hours`, where the encoder does not yet
wrap). -/
theorem C1_roundtrip_amended :
    (∀ fps : ℚ, ∀ f : ℕ, 1 ≤ pyRound fps → (f : ℤ) < 360000 * pyRound fps →
      SMPTE.getframes fps false (SMPTE.gettc fps false (f : ℤ)) = .ok (f : ℤ)) ∧
    (∀ f : ℕ, f < 2589408 →
      SMPTE.getframes (2997/100) true (SMPTE.gettc (2997/100) true (f : ℤ)) = .ok (f : ℤ)) ∧
    (∀ f : ℕ, f < 5178816 →
      SMPTE.getframes (5994/100) true (SMPTE.gettc (5994/100) true (f : ℤ)) = .ok (f : ℤ)) :=
  ⟨SMPTE.roundtrip_ndf, SMPTE.roundtrip_df_2997, SMPTE.roundtrip_df_5994⟩

/-- C1 witness: the amended round trip at 25 fps non-drop-frame (frame
100), and at both drop-frame rates (frame 1800 resp. 3600). -/
theorem C1_roundtrip_amended_witness :
    SMPTE.getframes 25 false (SMPTE.gettc 25 false ((100 : ℕ) : ℤ)) = .ok ((100 : ℕ) : ℤ) ∧
    SMPTE.getframes (2997/100) true (SMPTE.gettc (2997/100) true ((1800 : ℕ) : ℤ)) =
      .ok ((1800 : ℕ) : ℤ) ∧
    SMPTE.getframes (5994/100) true (SMPTE.gettc (5994/100) true ((3600 : ℕ) : ℤ)) =
      .ok ((3600 : ℕ) : ℤ) := by
  have h25 : pyRound (25 : ℚ) = 25 := by
    apply pyRound_lo
    · rw [Int.floor_eq_iff]
      · norm_num
    · norm_num
  refine ⟨C1_roundtrip_amended.1 25 100 ?_ ?_, C1_roundtrip_amended.2.1 1800 (by norm_num),
    C1_roundtrip_amended.2.2 3600 (by norm_num)⟩
  · rw [h25]
    norm_num
  · rw [h25]
    norm_num

/-- C2 counterexample: frame 17982 at 29.97 drop-frame is ten minutes
(`framesPer10Minutes`), so the encoder produces "00:10:00;00", not the
claimed "00:01:00;02". -/
theorem C2_counterexample :
    SMPTE.gettc (2997/100) true 17982 = "00:10:00;00" ∧
    SMPTE.gettc (2997/100) true 17982 ≠ "00:01:00;02" := by
  have h1 : SMPTE.gettc (2997/100) true 17982 = "00:10:00;00" := by
    simp only [SMPTE.gettc, r2997_drop, r2997_base, r2997_hour, r2997_ten, if_true]
    decide
  exact ⟨h1, by rw [h1]; decide⟩

/-- C2 (amended): at 29.97 drop-frame, frame 0 encodes to "00:00:00;00",
the first dropped minute boundary is frame 1800 which encodes to
"00:01:00;02", and no input frame whatsoever encodes to "00:01:00;00" or
"00:01:00;01". -/
theorem C2_dropframe_amended :
    SMPTE.gettc (2997/100) true 0 = "00:00:00;00" ∧
    SMPTE.gettc (2997/100) true 1800 = "00:01:00;02" ∧
    ∀ f : ℤ, SMPTE.gettc (2997/100) true f ≠ "00:01:00;00" ∧
             SMPTE.gettc (2997/100) true f ≠ "00:01:00;01" := by
  refine ⟨?_, ?_, ?_⟩
  · simp only [SMPTE.gettc, r2997_drop, r2997_base, r2997_hour, r2997_ten, if_true]
    decide
  · simp only [SMPTE.gettc, r2997_drop, r2997_base, r2997_hour, r2997_ten, if_true]
    decide
  · intro f
    constructor
    · rw [show ("00:01:00;00" : String) = SMPTE.tcString 0 1 0 0 (String.mk [';']) from by decide]
      exact SMPTE.gettc_2997_never_aux f 0 (Or.inl rfl)
    · rw [show ("00:01:00;01" : String) = SMPTE.tcString 0 1 0 1 (String.mk [';']) from by decide]
      exact SMPTE.gettc_2997_never_aux f 1 (Or.inr rfl)

/-- C6: parsing a well-formed timecode string fails with the rate-mismatch
error exactly when the frame field exceeds the rate's integer frame
ceiling `⌊fps⌋` (for an integer frame field, being greater than the
fractional rate is being greater than its floor); frame fields within the
ceiling never raise. -/
theorem C6_rate_mismatch (fps : ℚ) (df : Bool) (hr mn sc fr : ℤ) (sp : Char)
    (hhr0 : 0 ≤ hr) (hhr : hr < 100) (hmn0 : 0 ≤ mn) (hmn : mn < 100)
    (hsc0 : 0 ≤ sc) (hsc : sc < 100) (hfr0 : 0 ≤ fr) :
    (⌊fps⌋ < fr → SMPTE.getframes fps df (SMPTE.tcString hr mn sc fr (String.mk [sp])) =
        .error "SMPTE timecode to frame rate mismatch.") ∧
    (fr ≤ ⌊fps⌋ → ∃ v, SMPTE.getframes fps df (SMPTE.tcString hr mn sc fr (String.mk [sp])) =
        .ok v) := by
  constructor
  · intro hgt
    exact SMPTE.getframes_tcString_err fps df hr mn sc fr sp hhr0 hhr hmn0 hmn hsc0 hsc hfr0
      (Int.floor_lt.mp hgt)
  · intro hle
    rw [SMPTE.getframes_tcString_ok fps df hr mn sc fr sp hhr0 hhr hmn0 hmn hsc0 hsc hfr0
      (frame_guard fr ⌊fps⌋ fps hle (Int.floor_le fps))]
    cases df
    · rw [if_neg (by simp)]
      exact ⟨_, rfl⟩
    · rw [if_pos rfl]
      exact ⟨_, rfl⟩

/-- C6 witness: at 25 fps a frame field of 30 raises the rate mismatch
error. -/
theorem C6_rate_mismatch_witness :
    SMPTE.getframes 25 false (SMPTE.tcString 0 0 0 30 (String.mk [':'])) =
      .error "SMPTE timecode to frame rate mismatch." := by
  have h25 : ⌊(25 : ℚ)⌋ = 25 := by
    rw [Int.floor_eq_iff]
    · norm_num
  exact (C6_rate_mismatch 25 false 0 0 0 30 ':' (by norm_num) (by norm_num) (by norm_num)
    (by norm_num) (by norm_num) (by norm_num) (by norm_num)).1 (by rw [h25]; norm_num)

/-- C10: `gettc` takes the absolute value of its argument first, so a
negative frame count encodes exactly like its absolute value and encoding
never fails on negative input. -/
theorem C10_gettc_abs (fps : ℚ) (df : Bool) (f : ℤ) :
    SMPTE.gettc fps df f = SMPTE.gettc fps df (-f) := by
  simp only [SMPTE.gettc, Int.natAbs_neg]

/-! ### Claim theorems: identity scheme -/

/-- C3 counterexample: an element of kind "Fusion" does not fall back to
the UNKNOWN id; the code has a dedicated FUSION branch using the node
path (default "root"). -/
theorem C3_counterexample :
    SubtitleEditor.generate_unique_id { type := "Fusion" } = "FUSION_0_0_root" ∧
    SubtitleEditor.generate_unique_id { type := "Fusion" } ≠ "UNKNOWN_0_0" := by
  constructor
  · decide
  · decide

/-- C3 (amended): `generate_unique_id` is a total deterministic function
of the element's structural fields producing `SUB_<track>_<start>` for
Subtitle, `TEXTPLUS_<track>_<start>_<sanitized name>` for Text+,
`MULTI_<track>_<start>_<sanitized name>_L<layer>` for MultiText,
`FUSION_<track>_<start>_<sanitized node path, default "root">` for Fusion
and Fusion Macro, and `UNKNOWN_<track>_<start>` for every other kind;
sanitization of a non-empty name replaces each of '.', '/', '\', ',' by
'_' and leaves every other character unchanged. -/
theorem C3_unique_id_amended :
    (∀ c : Clip, c.type = "Subtitle" →
      SubtitleEditor.generate_unique_id c =
        "SUB_" ++ pyStrInt (pyOrInt c.track_idx (c.track_index.getD 0)) ++ "_" ++
          pyStrInt c.start_frame) ∧
    (∀ c : Clip, c.type = "Text+" →
      SubtitleEditor.generate_unique_id c =
        "TEXTPLUS_" ++ pyStrInt (pyOrInt c.track_idx (c.track_index.getD 0)) ++ "_" ++
          pyStrInt c.start_frame ++ "_" ++ SubtitleEditor.sanitize_node_name_for_id c.node_name) ∧
    (∀ c : Clip, c.type = "MultiText" →
      SubtitleEditor.generate_unique_id c =
        "MULTI_" ++ pyStrInt (pyOrInt c.track_idx (c.track_index.getD 0)) ++ "_" ++
          pyStrInt c.start_frame ++ "_" ++ SubtitleEditor.sanitize_node_name_for_id c.node_name ++
          "_L" ++ pyStrInt (pyOrInt c.layer_num (c.layer_index.getD 0))) ∧
    (∀ c : Clip, c.type = "Fusion" ∨ c.type = "Fusion Macro" →
      SubtitleEditor.generate_unique_id c =
        "FUSION_" ++ pyStrInt (pyOrInt c.track_idx (c.track_index.getD 0)) ++ "_" ++
          pyStrInt c.start_frame ++ "_" ++
          SubtitleEditor.sanitize_node_name_for_id (c.node_path.getD "root")) ∧
    (∀ c : Clip, c.type ≠ "Subtitle" → c.type ≠ "Text+" → c.type ≠ "MultiText" →
      c.type ≠ "Fusion" → c.type ≠ "Fusion Macro" →
      SubtitleEditor.generate_unique_id c =
        "UNKNOWN_" ++ pyStrInt (pyOrInt c.track_idx (c.track_index.getD 0)) ++ "_" ++
          pyStrInt c.start_frame) ∧
    (∀ name : String, name ≠ "" →
      (SubtitleEditor.sanitize_node_name_for_id name).data =
        name.data.map (fun ch =>
          if ch = '.' ∨ ch = '/' ∨ ch = '\\' ∨ ch = ',' then '_' else ch)) := by
  refine ⟨?_, ?_, ?_, ?_, ?_, ?_⟩
  · intro c h
    rw [SubtitleEditor.generate_unique_id, if_pos h]
  · intro c h
    rw [SubtitleEditor.generate_unique_id, if_neg (by rw [h]; decide), if_pos h]
  · intro c h
    rw [SubtitleEditor.generate_unique_id, if_neg (by rw [h]; decide),
      if_neg (by rw [h]; decide), if_pos h]
  · intro c h
    have h1 : c.type ≠ "Subtitle" := by rcases h with h | h <;> rw [h] <;> decide
    have h2 : c.type ≠ "Text+" := by rcases h with h | h <;> rw [h] <;> decide
    have h3 : c.type ≠ "MultiText" := by rcases h with h | h <;> rw [h] <;> decide
    rw [SubtitleEditor.generate_unique_id, if_neg h1, if_neg h2, if_neg h3, if_pos h]
  · intro c h1 h2 h3 h4 h5
    rw [SubtitleEditor.generate_unique_id, if_neg h1, if_neg h2, if_neg h3,
      if_neg (by rintro (h | h) <;> contradiction)]
  · intro name hne
    rw [SubtitleEditor.sanitize_node_name_for_id, if_neg hne]
    simp only [pyReplaceChar, List.map_map]
    have hfun : ((fun x => if x = ',' then '_' else x) ∘ (fun x => if x = '\\' then '_' else x) ∘
        (fun x => if x = '/' then '_' else x) ∘ (fun x => if x = '.' then '_' else x)) =
        (fun ch => if ch = '.' ∨ ch = '/' ∨ ch = '\\' ∨ ch = ',' then '_' else ch) := by
      funext ch
      by_cases e1 : ch = '.'
      · simp [e1]
      · by_cases e2 : ch = '/'
        · simp [e1, e2]
        · by_cases e3 : ch = '\\'
          · simp [e1, e2, e3]
          · by_cases e4 : ch = ','
            · simp [e1, e2, e3, e4]
            · simp [e1, e2, e3, e4]
    rw [hfun]

/-- C3 witness: the amended id formats at concrete elements of each kind. -/
theorem C3_unique_id_amended_witness :
    SubtitleEditor.generate_unique_id
      { type := "Subtitle", track_idx := some 3, start_frame := 42 } = "SUB_3_42" ∧
    SubtitleEditor.generate_unique_id
      { type := "Text+", track_idx := some 2, start_frame := 7, node_name := "a.b/c" } =
      "TEXTPLUS_2_7_a_b_c" ∧
    SubtitleEditor.generate_unique_id
      { type := "MultiText", track_idx := some 1, start_frame := 5, node_name := "n",
        layer_num := some 4 } = "MULTI_1_5_n_L4" ∧
    SubtitleEditor.generate_unique_id { type := "Title", track_idx := some 9, start_frame := 8 } =
      "UNKNOWN_9_8" := by
  refine ⟨?_, ?_, ?_, ?_⟩
  · rw [C3_unique_id_amended.1 _ rfl]
    decide
  · rw [C3_unique_id_amended.2.1 _ rfl]
    decide
  · rw [C3_unique_id_amended.2.2.1 _ rfl]
    decide
  · rw [C3_unique_id_amended.2.2.2.2.1 _ (by decide) (by decide) (by decide) (by decide) (by decide)]
    decide

/-! ### Claim theorems: import matching -/

/-- C4: `match_clips_with_import` considers exactly the rows with
non-empty `new_text` whose declared type is empty or in the filter; each
considered row is paired with the first clip of a filtered kind whose
generated id equals the row's uid, and every considered row without a
match lands in the not-found list. -/
theorem C4_matching (import_data : List (String × ImportRow)) (type_filters : List String)
    (all_clips : List Clip) :
    SubtitleEditor.match_clips_with_import import_data type_filters all_clips =
      ((specConsidered import_data type_filters).filterMap
          (fun row => (specFindMatch all_clips type_filters row.1).map
            (fun c => (c, row.2.new_text))),
       ((specConsidered import_data type_filters).filter
          (fun row => (specFindMatch all_clips type_filters row.1).isNone)).map Prod.fst) := by
  induction import_data with
  | nil => rfl
  | cons head rest ih =>
    obtain ⟨uid, data⟩ := head
    rw [SubtitleEditor.match_clips_with_import]
    by_cases h1 : data.new_text = ""
    · rw [if_pos h1, ih]
      have hcond : ((data.new_text != "") &&
          ((data.element_type == "") || type_filters.contains data.element_type)) = false := by
        simp [h1]
      simp only [specConsidered, List.filter_cons]
      rw [hcond, if_neg (by decide)]
    · rw [if_neg h1]
      by_cases h2 : data.element_type ≠ "" ∧ data.element_type ∉ type_filters
      · rw [if_pos h2, ih]
        have hcond : ((data.new_text != "") &&
            ((data.element_type == "") || type_filters.contains data.element_type)) = false := by
          obtain ⟨h2a, h2b⟩ := h2
          simp [h2a, h2b]
        simp only [specConsidered, List.filter_cons]
        rw [hcond, if_neg (by decide)]
      · rw [if_neg h2]
        have hcond : ((data.new_text != "") &&
            ((data.element_type == "") || type_filters.contains data.element_type)) = true := by
          push_neg at h2
          by_cases he : data.element_type = ""
          · simp [h1, he]
          · simp [h1, he, h2 he]
        cases hfind : all_clips.find? (fun c =>
            type_filters.contains c.type && (SubtitleEditor.generate_unique_id c == uid)) with
        | some clip =>
          rw [ih]
          have hspec : specFindMatch all_clips type_filters uid = some clip := hfind
          simp only [specConsidered, List.filter_cons]
          rw [hcond, if_pos rfl, List.filterMap_cons, List.filter_cons]
          have hf1 : (specFindMatch all_clips type_filters (uid, data).1).map
              (fun c => (c, (uid, data).2.new_text)) = some (clip, data.new_text) := by
            rw [show (uid, data).1 = uid from rfl, hspec]
            rfl
          rw [hf1]
          have hf2 : ((specFindMatch all_clips type_filters (uid, data).1).isNone) = false := by
            rw [show (uid, data).1 = uid from rfl, hspec]
            rfl
          rw [hf2, if_neg (by decide)]
        | none =>
          rw [ih]
          have hspec : specFindMatch all_clips type_filters uid = none := hfind
          simp only [specConsidered, List.filter_cons]
          rw [hcond, if_pos rfl, List.filterMap_cons, List.filter_cons]
          have hf1 : (specFindMatch all_clips type_filters (uid, data).1).map
              (fun c => (c, (uid, data).2.new_text)) = none := by
            rw [show (uid, data).1 = uid from rfl, hspec]
            rfl
          rw [hf1]
          have hf2 : ((specFindMatch all_clips type_filters (uid, data).1).isNone) = true := by
            rw [show (uid, data).1 = uid from rfl, hspec]
            rfl
          rw [hf2, if_pos rfl, List.map_cons]

/-! ### Claim theorems: sentence case -/

lemma forall2_append {α β : Type} {R : α → β → Prop} {l1 l2 : List α} {r1 r2 : List β}
    (h1 : List.Forall₂ R l1 r1) (h2 : List.Forall₂ R l2 r2) :
    List.Forall₂ R (l1 ++ l2) (r1 ++ r2) := by
  induction h1 with
  | nil => exact h2
  | cons h t ih => exact List.Forall₂.cons h ih

/-- The sentence-case scan only ever uppercases characters in place:
output and input correspond position by position, each output character
being the input one or its uppercase. -/
lemma scanSC_forall2 (fuel : ℕ) (cs : List Char) :
    List.Forall₂ (fun a b => b = a ∨ b = pyUpperChar a) cs (scanSC fuel cs) := by
  induction fuel generalizing cs with
  | zero =>
    rw [scanSC]
    exact List.forall₂_same.mpr (fun a _ => Or.inl rfl)
  | succ fuel ih =>
    match cs with
    | [] => exact List.Forall₂.nil
    | c :: rest =>
      rw [scanSC]
      by_cases hp : isSentencePunct c = true
      · rw [if_pos hp]
        cases htw : rest.takeWhile isPySpace with
        | nil => exact List.Forall₂.cons (Or.inl rfl) (ih rest)
        | cons w ws =>
          cases hdw : rest.dropWhile isPySpace with
          | nil => exact List.Forall₂.cons (Or.inl rfl) (ih rest)
          | cons l rest3 =>
            dsimp only
            by_cases hl : isSentenceLetter l = true
            · rw [if_pos hl]
              refine List.Forall₂.cons (Or.inl rfl) ?_
              have hsplit : rest = rest.takeWhile isPySpace ++ rest.dropWhile isPySpace :=
                (List.takeWhile_append_dropWhile isPySpace rest).symm
              rw [hsplit, hdw, htw]
              exact forall2_append (List.forall₂_same.mpr (fun a _ => Or.inl rfl))
                (List.Forall₂.cons (Or.inr rfl) (ih rest3))
            · rw [if_neg hl]
              exact List.Forall₂.cons (Or.inl rfl) (ih rest)
      · rw [if_neg hp]
        exact List.Forall₂.cons (Or.inl rfl) (ih rest)

/-- C5 counterexample: the sentence-case transform never lowercases, so
"NEXT" is left as is (the claimed output "Next sentence" is wrong), and
its character class is ASCII plus Cyrillic only, so a leading 'é' is not
capitalized. -/
theorem C5_counterexample :
    SubtitleEditor.sentence_case "hello world. NEXT sentence" ≠ "Hello world. Next sentence" ∧
    SubtitleEditor.sentence_case "école" = "école" := by
  constructor
  · decide
  · decide

/-- C5 (amended): sentence case uppercases the first letter of the
(stripped) string and the first letter after '.'/'!'/'?' plus whitespace,
leaving every other character unchanged — in particular it never
lowercases, so the example yields "Hello world. NEXT sentence"; the
letters it recognises are ASCII `a-zA-Z` and Cyrillic `а-яА-Я` (it works
on Cyrillic but not on other non-ASCII letters such as 'é'). -/
theorem C5_sentence_case_amended :
    SubtitleEditor.sentence_case "hello world. NEXT sentence" = "Hello world. NEXT sentence" ∧
    SubtitleEditor.sentence_case "привет. мир" = "Привет. Мир" ∧
    SubtitleEditor.sentence_case "école" = "école" ∧
    ∀ s : String, List.Forall₂ (fun a b => b = a ∨ b = pyUpperChar a)
      (pyStrip s).data (SubtitleEditor.sentence_case s).data := by
  refine ⟨by decide, by decide, by decide, ?_⟩
  intro s
  rw [SubtitleEditor.sentence_case]
  cases hst : (pyStrip s).data with
  | nil => exact List.Forall₂.nil
  | cons c rest =>
    dsimp only
    by_cases hc : isSentenceLetter c = true
    · rw [if_pos hc]
      exact List.Forall₂.cons (Or.inr rfl) (scanSC_forall2 rest.length rest)
    · rw [if_neg hc]
      exact scanSC_forall2 (c :: rest).length (c :: rest)

/-! ### Claim theorems: replace all -/

/-- With no active type filter, each replace-all pass counts exactly the
elements whose current text contains the search term. -/
lemma on_replace_all_count (st rt : String) (clips : List Clip) :
    (SubtitleEditor.on_replace_all st rt "All" clips).2 =
      clips.countP (fun c => pyContains (getText c) st) := by
  induction clips with
  | nil => rfl
  | cons clip rest ih =>
    rw [SubtitleEditor.on_replace_all]
    rw [if_neg (by simp)]
    by_cases h : pyContains (getText clip) st = true
    · rw [if_pos h]
      simp [List.countP_cons, h, ih]
    · rw [if_neg h]
      simp only [List.countP_cons]
      rw [ih]
      simp [h]

/-- C9 counterexample: replace-all in Contains mode with match_case on is
not idempotent: with search "a" and replacement "aa" on one subtitle with
text "a", the first run yields "aa" and the second "aaaa". -/
theorem C9_counterexample :
    (SubtitleEditor.on_replace_all "a" "aa" "All"
        (SubtitleEditor.on_replace_all "a" "aa" "All"
          [{ type := "Subtitle", text := "a" }]).1).1 ≠
      (SubtitleEditor.on_replace_all "a" "aa" "All"
        [{ type := "Subtitle", text := "a" }]).1 := by
  decide

/-- C9 (amended): replace-all in Contains mode with match_case enabled is
not idempotent in general, but the second run's affected count equals the
number of elements whose text after the first run still contains the
search term as a literal substring (no active type filter). -/
theorem C9_second_run_count (st rt : String) (clips : List Clip) :
    (SubtitleEditor.on_replace_all st rt "All"
        (SubtitleEditor.on_replace_all st rt "All" clips).1).2 =
      ((SubtitleEditor.on_replace_all st rt "All" clips).1.countP
        (fun c => pyContains (getText c) st)) :=
  on_replace_all_count st rt _

/-! ### Words, join and strip lemmas -/

lemma wordsAux_prop (cs : List Char) : ∀ acc : List Char,
    (∀ c ∈ acc, isPySpace c = false) →
    ∀ w ∈ wordsAux cs acc, w ≠ [] ∧ ∀ c ∈ w, isPySpace c = false := by
  induction cs with
  | nil =>
    intro acc hacc w hw
    rw [wordsAux] at hw
    by_cases hae : acc = []
    · rw [if_pos hae] at hw
      simp at hw
    · rw [if_neg hae] at hw
      simp only [List.mem_singleton] at hw
      subst hw
      refine ⟨by simpa using hae, ?_⟩
      intro c hc
      exact hacc c (List.mem_reverse.mp hc)
  | cons c rest ih =>
    intro acc hacc w hw
    rw [wordsAux] at hw
    by_cases hsp : isPySpace c = true
    · rw [if_pos hsp] at hw
      by_cases hae : acc = []
      · rw [if_pos hae] at hw
        exact ih [] (by simp) w hw
      · rw [if_neg hae] at hw
        rcases List.mem_cons.mp hw with h | h
        · subst h
          refine ⟨by simpa using hae, ?_⟩
          intro x hx
          exact hacc x (List.mem_reverse.mp hx)
        · exact ih [] (by simp) w h
    · rw [if_neg hsp] at hw
      refine ih (c :: acc) ?_ w hw
      intro x hx
      rcases List.mem_cons.mp hx with h | h
      · subst h
        simpa using hsp
      · exact hacc x h

/-- Every word produced by `pyWords` is non-empty and whitespace-free. -/
lemma pyWords_prop (s : String) :
    ∀ w ∈ pyWords s, w.data ≠ [] ∧ ∀ c ∈ w.data, isPySpace c = false := by
  intro w hw
  obtain ⟨l, hl, rfl⟩ := List.mem_map.mp hw
  exact wordsAux_prop s.data [] (by simp) l hl

lemma pyJoin_cons (p : String) (xs : List String) (h : xs ≠ []) :
    pyJoin " " (p :: xs) = p ++ " " ++ pyJoin " " xs := by
  cases xs with
  | nil => exact absurd rfl h
  | cons q qs => rfl

lemma pyJoin_append (A B : List String) (hA : A ≠ []) (hB : B ≠ []) :
    pyJoin " " (A ++ B) = pyJoin " " A ++ " " ++ pyJoin " " B := by
  induction A with
  | nil => exact absurd rfl hA
  | cons p ps ih =>
    by_cases hps : ps = []
    · subst hps
      rw [show ([p] : List String) ++ B = p :: B from rfl, pyJoin_cons p B hB]
      rfl
    · rw [show (p :: ps) ++ B = p :: (ps ++ B) from rfl,
        pyJoin_cons p (ps ++ B) (by simp [hps]), pyJoin_cons p ps hps, ih hps]
      simp only [String.append_assoc]

lemma pyJoin_data_ne (parts : List String) (hne : parts ≠ [])
    (hp : ∀ p ∈ parts, p.data ≠ []) : (pyJoin " " parts).data ≠ [] := by
  cases parts with
  | nil => exact absurd rfl hne
  | cons p ps =>
    cases ps with
    | nil => exact hp p (by simp)
    | cons q qs =>
      rw [pyJoin_cons p (q :: qs) (by simp)]
      simp only [String.data_append]
      intro h
      rcases List.append_eq_nil.mp h with ⟨h1, _⟩
      rcases List.append_eq_nil.mp h1 with ⟨h2, _⟩
      exact hp p (by simp) h2

/-- The head and last characters of a space-joined list of non-empty
whitespace-free words are not whitespace. -/
lemma pyJoin_ends (parts : List String)
    (hp : ∀ p ∈ parts, p.data ≠ [] ∧ ∀ c ∈ p.data, isPySpace c = false) :
    (∀ c, (pyJoin " " parts).data.head? = some c → isPySpace c = false) ∧
    (∀ c, (pyJoin " " parts).data.getLast? = some c → isPySpace c = false) := by
  induction parts with
  | nil =>
    constructor
    · intro c hc
      simp [pyJoin] at hc
    · intro c hc
      simp [pyJoin] at hc
  | cons p ps ih =>
    by_cases hps : ps = []
    · subst hps
      constructor
      · intro c hc
        have : (pyJoin " " [p]).data = p.data := rfl
        rw [this] at hc
        exact (hp p (by simp)).2 c (List.mem_of_mem_head? hc)
      · intro c hc
        have hd : (pyJoin " " [p]).data = p.data := rfl
        rw [hd] at hc
        obtain ⟨hne2, hceq⟩ := List.mem_getLast?_eq_getLast (show c ∈ p.data.getLast? from hc)
        rw [hceq]
        exact (hp p (by simp)).2 _ (List.getLast_mem hne2)
    · have ihp : ∀ q ∈ ps, q.data ≠ [] ∧ ∀ c ∈ q.data, isPySpace c = false :=
        fun q hq => hp q (by simp [hq])
      obtain ⟨ih1, ih2⟩ := ih ihp
      constructor
      · intro c hc
        rw [pyJoin_cons p ps hps] at hc
        simp only [String.data_append] at hc
        rw [List.head?_append, List.head?_append] at hc
        have hpne := (hp p (by simp)).1
        cases hd : p.data with
        | nil => exact absurd hd hpne
        | cons a t =>
          rw [hd] at hc
          simp at hc
          subst hc
          exact (hp p (by simp)).2 a (by rw [hd]; simp)
      · intro c hc
        rw [pyJoin_cons p ps hps] at hc
        simp only [String.data_append] at hc
        have hjne : (pyJoin " " ps).data ≠ [] := pyJoin_data_ne ps hps (fun q hq => (ihp q hq).1)
        rw [List.getLast?_append_of_ne_nil _ hjne] at hc
        exact ih2 c hc

/-- `strip` is the identity on a string whose first and last characters
are not whitespace. -/
lemma pyStrip_eq_of_ends (cs : List Char)
    (hh : ∀ c, cs.head? = some c → isPySpace c = false)
    (hl : ∀ c, cs.getLast? = some c → isPySpace c = false) :
    pyStrip (String.mk cs) = String.mk cs := by
  rw [pyStrip]
  have hdata : (String.mk cs).data = cs := rfl
  rw [hdata]
  have h1 : cs.dropWhile isPySpace = cs := by
    cases hcs : cs with
    | nil => rfl
    | cons a t =>
      rw [List.dropWhile_cons, if_neg]
      rw [hh a (by rw [hcs]; rfl)]
      simp
  rw [h1]
  have h2 : cs.reverse.dropWhile isPySpace = cs.reverse := by
    cases hrev : cs.reverse with
    | nil => rfl
    | cons b bs =>
      rw [List.dropWhile_cons, if_neg]
      have hb : cs.getLast? = some b := by
        rw [← List.head?_reverse, hrev]
        rfl
      rw [hl b hb]
      simp
  rw [h2, List.reverse_reverse]

/-! ### Claim theorems: split and merge -/

lemma sortByStart_pair (a b : Clip) (h : a.start_frame ≤ b.start_frame) :
    sortByStart [a, b] = [a, b] := by
  show List.orderedInsert startLE a (List.insertionSort startLE [b]) = [a, b]
  show List.orderedInsert startLE a (List.orderedInsert startLE b []) = [a, b]
  show List.orderedInsert startLE a [b] = [a, b]
  rw [List.orderedInsert, if_pos (show startLE a b from h)]

/-- Merging two freshly split subtitle halves (same frame boundary,
non-negative gap threshold) produces one clip spanning from the first
half's start to the second half's end with the texts joined by one
space. -/
lemma merge_two (n1 n2 : Clip) (fps : ℚ)
    (ht1 : n1.type = "Subtitle") (ht2 : n2.type = "Subtitle")
    (hle : n1.start_frame ≤ n2.start_frame)
    (hgap : n2.start_frame - n1.end_frame ≤ pyTruncInt (2 * fps)) :
    SubtitleEditor.merge_subtitles [n1, n2] fps [n1, n2] =
      some [{ n1 with
        text := getText n1 ++ " " ++ getText n2
        edited_text := some (getText n1 ++ " " ++ getText n2)
        start_frame := n1.start_frame
        end_frame := n2.end_frame }] := by
  rw [SubtitleEditor.merge_subtitles]
  rw [if_neg (by simp)]
  rw [if_neg (by simp [ht1, ht2])]
  simp only [sortByStart_pair n1 n2 hle]
  have hanygap : (([n1, n2].zip [n2]).any (fun p =>
      decide (p.2.start_frame - p.1.end_frame > pyTruncInt (2 * fps)))) = false := by
    simp only [List.zip, List.zipWith, List.any_cons, List.any_nil, Bool.or_false]
    rw [decide_eq_false]
    simp only [gt_iff_lt, not_lt]
    exact hgap
  rw [if_neg (by
    simp only [List.zip, List.zipWith, List.any_cons, List.any_nil, Bool.or_false,
      decide_eq_true_eq, gt_iff_lt, not_lt]
    omega)]
  have hfold : List.foldl (fun acc c => acc.erase c) ([n1, n2] : List Clip) [n1, n2] = [] := by
    rw [List.foldl_cons, List.foldl_cons, List.foldl_nil]
    rw [List.erase_cons_head, List.erase_cons_head]
  show some (List.foldl (fun acc c => acc.erase c) ([n1, n2] : List Clip) [n1, n2] ++
      [{ n1 with
          text := pyJoin " " (([n1, n2] : List Clip).map getText)
          edited_text := some (pyJoin " " (([n1, n2] : List Clip).map getText))
          start_frame := n1.start_frame
          end_frame := (List.getLast ([n1, n2] : List Clip) (by simp)).end_frame }]) = _
  rw [hfold]
  rfl

/-- C8: splitting a subtitle with at least two words at `auto` and
immediately merging the two pieces (the gap is zero, within any
non-negative threshold) restores the original frame range; the text
becomes the two halves joined by one space, which equals the
whitespace-collapsed original text (its words joined by single spaces). -/
theorem C8_split_merge (clip : Clip) (fps : ℚ)
    (htype : clip.type = "Subtitle")
    (hwords : 2 ≤ (pyWords (getText clip)).length)
    (hrange : clip.start_frame ≤ clip.end_frame)
    (hfps : 0 ≤ fps) :
    ∃ c1 c2 m : Clip,
      SubtitleEditor.split_subtitle clip "auto" [clip] = some [c1, c2] ∧
      SubtitleEditor.merge_subtitles [c1, c2] fps [c1, c2] = some [m] ∧
      m.start_frame = clip.start_frame ∧
      m.end_frame = clip.end_frame ∧
      m.text = getText c1 ++ " " ++ getText c2 ∧
      m.text = pyJoin " " (pyWords (getText clip)) := by
  have hwprop := pyWords_prop (getText clip)
  set W := pyWords (getText clip) with hW
  have hWne : ¬ W = [] := by
    intro h
    rw [h] at hwords
    simp at hwords
  set kn := W.length / 2 with hkn
  have hkdiv : ((W.length : ℤ) / 2).toNat = kn := by
    have h1 : ((W.length : ℤ) / 2) = ((W.length / 2 : ℕ) : ℤ) := by omega
    rw [h1, Int.toNat_natCast]
  have hk1 : 1 ≤ kn := by omega
  have hk2 : kn < W.length := by omega
  have htake_ne : W.take kn ≠ [] := by
    intro h
    rcases List.take_eq_nil_iff.mp h with h2 | h2
    · omega
    · exact hWne h2
  have hdrop_ne : W.drop kn ≠ [] := by
    intro h
    have h2 := List.drop_eq_nil_iff.mp h
    omega
  have htake_prop : ∀ p ∈ W.take kn, p.data ≠ [] ∧ ∀ c ∈ p.data, isPySpace c = false :=
    fun p hp => hwprop p (List.mem_of_mem_take hp)
  have hdrop_prop : ∀ p ∈ W.drop kn, p.data ≠ [] ∧ ∀ c ∈ p.data, isPySpace c = false :=
    fun p hp => hwprop p (List.mem_of_mem_drop hp)
  have hstrip1 : pyStrip (pyJoin " " (W.take kn)) = pyJoin " " (W.take kn) := by
    obtain ⟨hh, hl⟩ := pyJoin_ends (W.take kn) htake_prop
    have := pyStrip_eq_of_ends (pyJoin " " (W.take kn)).data hh hl
    simpa using this
  have hstrip2 : pyStrip (pyJoin " " (W.drop kn)) = pyJoin " " (W.drop kn) := by
    obtain ⟨hh, hl⟩ := pyJoin_ends (W.drop kn) hdrop_prop
    have := pyStrip_eq_of_ends (pyJoin " " (W.drop kn)).data hh hl
    simpa using this
  have hjoin_ne1 : (pyJoin " " (W.take kn)).data ≠ [] :=
    pyJoin_data_ne _ htake_ne (fun p hp => (htake_prop p hp).1)
  have hjoin_ne2 : (pyJoin " " (W.drop kn)).data ≠ [] :=
    pyJoin_data_ne _ hdrop_ne (fun p hp => (hdrop_prop p hp).1)
  have hmid0 : 0 ≤ (clip.end_frame - clip.start_frame) / 2 :=
    Int.ediv_nonneg (by omega) (by omega)
  have hmid1 : clip.start_frame ≤ clip.start_frame + (clip.end_frame - clip.start_frame) / 2 := by
    omega
  have htrunc0 : 0 ≤ pyTruncInt (2 * fps) := by
    rw [pyTruncInt, if_pos (by positivity)]
    exact Int.floor_nonneg.mpr (by positivity)
  simp only [SubtitleEditor.split_subtitle]
  rw [if_neg (show ¬ clip.type ≠ "Subtitle" from by rw [htype]; simp)]
  rw [show pyLower (pyStrip "auto") = "auto" from by decide]
  rw [← hW, if_neg hWne, if_pos rfl]
  dsimp only
  rw [hkdiv, hstrip1, hstrip2]
  rw [if_neg (by
    rintro (h | h)
    · exact hjoin_ne1 (by rw [show pyJoin " " (W.take kn) = ("" : String) from h])
    · exact hjoin_ne2 (by rw [show pyJoin " " (W.drop kn) = ("" : String) from h]))]
  rw [List.erase_cons_head, List.nil_append]
  have hmerge := merge_two
    { clip with
      text := pyJoin " " (W.take kn)
      edited_text := some (pyJoin " " (W.take kn))
      end_frame := clip.start_frame + (clip.end_frame - clip.start_frame) / 2 }
    { clip with
      text := pyJoin " " (W.drop kn)
      edited_text := some (pyJoin " " (W.drop kn))
      start_frame := clip.start_frame + (clip.end_frame - clip.start_frame) / 2 }
    fps htype htype hmid1
    (by
      show clip.start_frame + (clip.end_frame - clip.start_frame) / 2 -
        (clip.start_frame + (clip.end_frame - clip.start_frame) / 2) ≤ pyTruncInt (2 * fps)
      omega)
  refine ⟨_, _, _, rfl, hmerge, rfl, rfl, rfl, ?_⟩
  show pyJoin " " (W.take kn) ++ " " ++ pyJoin " " (W.drop kn) = pyJoin " " W
  rw [← pyJoin_append _ _ htake_ne hdrop_ne, List.take_append_drop]

lemma trunc_2_25 : pyTruncInt (2 * (25 : ℚ)) = 50 := by
  rw [pyTruncInt, if_pos (by norm_num)]
  rw [show ⌊(2 * (25 : ℚ))⌋ = 50 from ?_]
  rw [Int.floor_eq_iff]
  · norm_num

/-- C7 counterexample: with nested spans (the first ends at 100, the
second starts at 10 and ends at 20) the merged span's end frame is the
end of the last clip in start order (20), not the latest end (100). -/
theorem C7_counterexample :
    SubtitleEditor.merge_subtitles
      [{ type := "Subtitle", start_frame := 0, end_frame := 100, text := "a" },
       { type := "Subtitle", start_frame := 10, end_frame := 20, text := "b" }] 25
      [{ type := "Subtitle", start_frame := 0, end_frame := 100, text := "a" },
       { type := "Subtitle", start_frame := 10, end_frame := 20, text := "b" }] =
      some [{ type := "Subtitle", start_frame := 0, end_frame := 20, text := "a b",
              edited_text := some "a b" }] ∧
    (20 : ℤ) ≠ 100 := by
  constructor
  · simp only [SubtitleEditor.merge_subtitles, trunc_2_25]
    decide
  · decide

/-- C7 (amended): merging at least two selected subtitle spans sorts them
by start frame; it fails, leaving the collection unchanged, whenever the
start-to-end gap of some consecutive pair of the sorted spans exceeds the
threshold `int(2 * fps)`; otherwise it replaces them by one span whose
start is the earliest start, whose texts are joined by single spaces in
sorted order, and whose end is the end frame of the LAST span in start
order (which is the latest end only when the spans are not nested). -/
theorem C7_merge_amended (selected : List Clip) (fps : ℚ) (all_clips : List Clip)
    (h2 : 2 ≤ selected.length) (hsub : ∀ c ∈ selected, c.type = "Subtitle") :
    ((∃ p ∈ (sortByStart selected).zip (sortByStart selected).tail,
        pyTruncInt (2 * fps) < p.2.start_frame - p.1.end_frame) →
      SubtitleEditor.merge_subtitles selected fps all_clips = none) ∧
    ((∀ p ∈ (sortByStart selected).zip (sortByStart selected).tail,
        p.2.start_frame - p.1.end_frame ≤ pyTruncInt (2 * fps)) →
      ∃ merged : Clip,
        SubtitleEditor.merge_subtitles selected fps all_clips =
          some (((sortByStart selected).foldl (fun acc c => acc.erase c) all_clips) ++
            [merged]) ∧
        merged.text = pyJoin " " ((sortByStart selected).map getText) ∧
        merged.edited_text = some merged.text ∧
        (∀ c ∈ selected, merged.start_frame ≤ c.start_frame) ∧
        (∃ c ∈ selected, merged.start_frame = c.start_frame) ∧
        (sortByStart selected).getLast?.map Clip.end_frame = some merged.end_frame ∧
        (∃ c ∈ selected, merged.end_frame = c.end_frame)) := by
  have hperm : List.Perm (sortByStart selected) selected :=
    List.perm_insertionSort startLE selected
  have hsorted : List.Sorted startLE (sortByStart selected) :=
    List.sorted_insertionSort startLE selected
  have hlen : (sortByStart selected).length = selected.length := hperm.length_eq
  rw [SubtitleEditor.merge_subtitles]
  rw [if_neg (by omega)]
  rw [if_neg (by
    simp only [List.any_eq_true, not_exists, not_and, Bool.not_eq_true]
    intro c hc
    simp [hsub c hc])]
  constructor
  · rintro ⟨p, hp, hgt⟩
    rw [if_pos (by
      rw [List.any_eq_true]
      exact ⟨p, hp, by simpa using hgt⟩)]
  · intro hall
    rw [if_neg (by
      rw [List.any_eq_true]
      rintro ⟨p, hp, hgt⟩
      simp only [decide_eq_true_eq, gt_iff_lt] at hgt
      exact absurd (hall p hp) (by omega))]
    cases hs : sortByStart selected with
    | nil =>
      exfalso
      rw [hs] at hlen
      simp at hlen
      omega
    | cons c0 rest =>
      rw [hs] at hperm hsorted
      refine ⟨_, rfl, rfl, rfl, ?_, ?_, ?_, ?_⟩
      · intro c hc
        have hmem : c ∈ c0 :: rest := hperm.symm.subset hc
        rcases List.mem_cons.mp hmem with h | h
        · rw [h]
        · exact List.rel_of_sorted_cons hsorted c h
      · exact ⟨c0, hperm.subset (List.mem_cons_self c0 rest), rfl⟩
      · rw [List.getLast?_eq_getLast_of_ne_nil (List.cons_ne_nil c0 rest)]
        rfl
      · exact ⟨(c0 :: rest).getLast (List.cons_ne_nil c0 rest),
          hperm.subset (List.getLast_mem (List.cons_ne_nil c0 rest)), rfl⟩

/-- C7 witness: two subtitles 4990 frames apart at 25 fps (threshold 50)
refuse to merge. -/
theorem C7_merge_amended_witness :
    SubtitleEditor.merge_subtitles
      [{ type := "Subtitle", start_frame := 0, end_frame := 10, text := "a" },
       { type := "Subtitle", start_frame := 5000, end_frame := 5010, text := "b" }] 25
      [{ type := "Subtitle", start_frame := 0, end_frame := 10, text := "a" },
       { type := "Subtitle", start_frame := 5000, end_frame := 5010, text := "b" }] = none := by
  refine (C7_merge_amended _ 25 _ (by decide) (by decide)).1
    ⟨({ type := "Subtitle", start_frame := 0, end_frame := 10, text := "a" },
      { type := "Subtitle", start_frame := 5000, end_frame := 5010, text := "b" }), ?_, ?_⟩
  · decide
  · rw [trunc_2_25]
    decide

/-- C8 witness: the split/merge inverse at a concrete two-word subtitle. -/
theorem C8_split_merge_witness :
    2 ≤ (pyWords (getText
      { type := "Subtitle", start_frame := 0, end_frame := 10, text := "foo bar" })).length ∧
    (∃ c1 c2 m : Clip,
      SubtitleEditor.split_subtitle
        { type := "Subtitle", start_frame := 0, end_frame := 10, text := "foo bar" } "auto"
        [{ type := "Subtitle", start_frame := 0, end_frame := 10, text := "foo bar" }] =
        some [c1, c2] ∧
      SubtitleEditor.merge_subtitles [c1, c2] 25 [c1, c2] = some [m] ∧
      m.start_frame =
        ({ type := "Subtitle", start_frame := 0, end_frame := 10, text := "foo bar" } : Clip).start_frame ∧
      m.end_frame =
        ({ type := "Subtitle", start_frame := 0, end_frame := 10, text := "foo bar" } : Clip).end_frame ∧
      m.text = getText c1 ++ " " ++ getText c2 ∧
      m.text = pyJoin " " (pyWords (getText
        { type := "Subtitle", start_frame := 0, end_frame := 10, text := "foo bar" }))) :=
  ⟨by decide, C8_split_merge _ 25 rfl (by decide) (by decide) (by norm_num)⟩
